import Mathlib

/-!
Shallow embedding of the presence and message-routing core of the ChatApp
repository (src/app.py and src/app_simple.py), together with proofs of the
behavioural properties stated in the specification.

Python dictionaries are modelled as association lists with replace-on-insert
semantics; transport-level socketio room membership is modelled as a list of
(socket id, room) pairs; datetime values are natural numbers, with the
strftime truncation to time-of-day modelled by reduction modulo 86400;
database failure (the try/except blocks around persistence calls) is
modelled by an explicit Boolean flag.
-/

namespace ChatApp

/-- Lookup in a Python dictionary modelled as an association list:
returns the value bound to the first occurrence of the key. -/
def dictLookup (k : String) : List (String × α) → Option α
  | [] => none
  | (k₁, v) :: rest => if k₁ = k then some v else dictLookup k rest

/-- Assignment `d[k] = v` on a Python dictionary: replaces the binding of the
first occurrence of the key in place, or appends a new binding at the end. -/
def dictSet (k : String) (v : α) : List (String × α) → List (String × α)
  | [] => [(k, v)]
  | (k₁, v₁) :: rest => if k₁ = k then (k, v) :: rest else (k₁, v₁) :: dictSet k v rest

/-- Deletion `del d[k]` (guarded by a containment check in the source, so the
absent-key case is a no-op). -/
def dictRemove (k : String) (m : List (String × α)) : List (String × α) :=
  m.filter (fun p => !(p.1 == k))

/-- A socket joining a room (flask_socketio join_room): room sets are
idempotent, so joining an already-joined room changes nothing. -/
def roomJoin (sid room : String) (rooms : List (String × String)) : List (String × String) :=
  if (sid, room) ∈ rooms then rooms else rooms ++ [(sid, room)]

/-- A socket leaving a room (flask_socketio leave_room). -/
def roomLeave (sid room : String) (rooms : List (String × String)) : List (String × String) :=
  rooms.filter (fun p => !(p.1 == sid && p.2 == room))

/-- Truncation of a datetime to its time of day, modelling
strftime with format H:M:S applied when building event payloads. -/
def fmtTime (now : Nat) : Nat := now % 86400

/-- Removal of leading and trailing whitespace from a string, modelling the
Python strip method applied to message bodies. -/
def pyStrip (s : String) : String :=
  ⟨((s.data.dropWhile Char.isWhitespace).reverse.dropWhile Char.isWhitespace).reverse⟩

/-! ## Embedding of src/app.py (database-backed entry point) -/

/-- Value stored in the online_users dictionary of app.py:
{username, room, socket_id}. -/
structure UserData where
  username : String
  room : String
  socket_id : String
deriving Repr, DecidableEq

/-- Mutable state of app.py relevant to the routing core: the online_users
dictionary keyed by user id, and the transport-level room memberships. -/
structure AppState where
  online_users : List (String × UserData)
  rooms : List (String × String)
deriving Repr, DecidableEq

/-- Function get_user_socket of app.py: scans online_users in insertion order
and returns the socket id of the first entry with the given username. -/
def get_user_socket (username : String) (st : AppState) : Option String :=
  (st.online_users.find? (fun p => p.2.username == username)).map (fun p => p.2.socket_id)

/-- Presence event emitted to a room (user_online, user_offline, room_joined). -/
structure PresenceEmit where
  room : String
  event : String
  user_id : String
  username : String
deriving Repr, DecidableEq

/-- Handler handle_connect of app.py: when the Flask session carries a user id
and username, the session is (re)registered in online_users with default room
general, the socket joins the general room, and a user_online event is
emitted; an unauthenticated connect does nothing. -/
def handle_connect (session : Option (String × String)) (sid : String) (st : AppState) :
    AppState × List PresenceEmit :=
  match session with
  | none => (st, [])
  | some (uid, name) =>
      ({ online_users := dictSet uid ⟨name, "general", sid⟩ st.online_users,
         rooms := roomJoin sid "general" st.rooms },
       [⟨"general", "user_online", uid, name⟩])

/-- Handler handle_disconnect of app.py: removes the user from online_users
when present and emits a user_offline event. -/
def handle_disconnect (session : Option (String × String)) (st : AppState) :
    AppState × List PresenceEmit :=
  match session with
  | none => (st, [])
  | some (uid, name) =>
      ({ st with online_users := dictRemove uid st.online_users },
       [⟨"general", "user_offline", uid, name⟩])

/-- Handler handle_join_room of app.py, translated statement by statement.
The source first leaves the current room only when the user id is present in
online_users, then unconditionally joins the new room at the transport level,
and then executes the assignment on online_users indexed by the user id,
which raises KeyError when the key is absent. The Except value records
whether the handler completed or raised; the returned state carries every
mutation performed before the raise. -/
def handle_join_room (session : Option (String × String)) (sid : String)
    (droom : Option String) (st : AppState) :
    AppState × Except Unit (List PresenceEmit) :=
  match session with
  | none => (st, Except.ok [])
  | some (uid, name) =>
      let room := droom.getD "general"
      let rooms₁ :=
        match dictLookup uid st.online_users with
        | some ud => roomLeave sid ud.room st.rooms
        | none => st.rooms
      let rooms₂ := roomJoin sid room rooms₁
      match dictLookup uid st.online_users with
      | none => ({ st with rooms := rooms₂ }, Except.error ())
      | some ud =>
          ({ online_users := dictSet uid { ud with room := room } st.online_users,
             rooms := rooms₂ },
           Except.ok [⟨room, "room_joined", uid, name⟩])

/-- Persisted private message row of app.py (table private_messages). -/
structure PrivateRec where
  sender_id : String
  sender_username : String
  recipient_username : String
  message : String
  message_type : String
  extra_data : Option String
  timestamp : Nat
deriving Repr, DecidableEq

/-- Inbound payload of a send_private_message event. The dataJson field stands
for the JSON serialization of the whole raw payload, which the source passes
to the persistence helper as extra data. -/
structure PMInput where
  message : String
  recipient : String
  type_ : String
  emotion_data : Option String
  mood_data : Option String
  dataJson : String
deriving Repr, DecidableEq

/-- Function save_private_message_to_db of app.py: the whole body is wrapped
in try/except, so on a storage failure the database is unchanged and the
error is printed; on success one row is appended, with extra data serialized
only for the emotion and mood_filter message types. -/
def save_private_message_to_db (dbFail : Bool) (user_id username recipient message
    message_type : String) (dataJson : String) (now : Nat) (db : List PrivateRec) :
    List PrivateRec × List String :=
  if dbFail then (db, ["Error saving private message"])
  else
    let extra_json : Option String :=
      if message_type = "emotion" ∨ message_type = "mood_filter" then some dataJson else none
    (db ++ [⟨user_id, username, recipient, message, message_type, extra_json, now⟩], [])

/-- Payload of a receive_private_message event as built in
handle_private_message. -/
structure MessageData where
  sender : String
  recipient : String
  message : String
  type_ : String
  timestamp : Nat
  user_id : String
  extra_data : Option String
deriving Repr, DecidableEq

/-- Result of the send_private_message handler: the database after the call,
the emitted deliveries as (target socket id, payload) pairs, and the error
log lines produced by the persistence layer. -/
structure PMOut where
  db : List PrivateRec
  emits : List (String × MessageData)
  logs : List String
deriving Repr, DecidableEq

/-- Handler handle_private_message of app.py: requires an authenticated Flask
session, trims the body and drops the event when the trimmed body or the
recipient is empty, persists best-effort, then emits the payload to the
requesting socket and, when the recipient differs from the sender and has a
live session, to the recipient socket as well. -/
def handle_private_message (session : Option (String × String)) (sid : String)
    (data : PMInput) (dbFail : Bool) (now : Nat) (st : AppState)
    (db : List PrivateRec) : PMOut :=
  match session with
  | none => ⟨db, [], []⟩
  | some (uid, name) =>
      let message := pyStrip data.message
      if message = "" ∨ data.recipient = "" then ⟨db, [], []⟩
      else
        let saved := save_private_message_to_db dbFail uid name data.recipient message
          data.type_ data.dataJson now db
        let extra : Option String :=
          if data.type_ = "emotion" then data.emotion_data
          else if data.type_ = "mood_filter" then data.mood_data
          else none
        let md : MessageData :=
          ⟨name, data.recipient, message, data.type_, fmtTime now, uid, extra⟩
        let emits :=
          (sid, md) ::
            (if data.recipient ≠ name then
               match get_user_socket data.recipient st with
               | some rsock => [(rsock, md)]
               | none => []
             else [])
        ⟨saved.1, emits, saved.2⟩

/-- Boolean match of the SQL WHERE clause of get_chat_history_from_db:
a row matches when it was sent from user1 to user2 or from user2 to user1. -/
def pmMatches (u1 u2 : String) (m : PrivateRec) : Bool :=
  (m.sender_username == u1 && m.recipient_username == u2) ||
  (m.sender_username == u2 && m.recipient_username == u1)

/-- Comparison used by ORDER BY timestamp ASC. -/
def pmLE (a b : PrivateRec) : Bool := decide (a.timestamp ≤ b.timestamp)

/-- Rows produced by the SQL query of get_chat_history_from_db: filter by the
conversation pair, order by timestamp ascending (a stable sort, matching the
deterministic rowid tie-breaking of the scan), and apply LIMIT; a storage
failure is caught by the surrounding try/except and yields no rows. -/
def conversationRows (dbFail : Bool) (u1 u2 : String) (limit : Nat)
    (db : List PrivateRec) : List PrivateRec :=
  if dbFail then []
  else ((db.filter (pmMatches u1 u2)).mergeSort pmLE).take limit

/-- Message dictionary returned to the frontend by get_chat_history_from_db. -/
structure FormattedMsg where
  sender : String
  recipient : String
  message : String
  type_ : String
  timestamp : Nat
  extra_data : Option String
deriving Repr, DecidableEq

/-- Formatting of one row for the frontend, with the timestamp reduced to
time of day by strftime. -/
def formatMsg (m : PrivateRec) : FormattedMsg :=
  ⟨m.sender_username, m.recipient_username, m.message, m.message_type,
   fmtTime m.timestamp, m.extra_data⟩

/-- Function get_chat_history_from_db of app.py: the formatted query result,
or the empty list when the storage layer raised. -/
def get_chat_history_from_db (dbFail : Bool) (u1 u2 : String) (limit : Nat)
    (db : List PrivateRec) : List FormattedMsg :=
  (conversationRows dbFail u1 u2 limit db).map formatMsg

/-- Handler handle_get_chat_history of app.py: returns the list of
chat_history emits (none when unauthenticated or the recipient is empty,
exactly one otherwise). -/
def handle_get_chat_history (session : Option (String × String)) (recipient : String)
    (dbFail : Bool) (db : List PrivateRec) : List (List FormattedMsg) :=
  match session with
  | none => []
  | some (_, name) =>
      if recipient = "" then []
      else [get_chat_history_from_db dbFail name recipient 50 db]

/-- One dispatch step of the app.py event loop acting on the shared state:
socket connect and disconnect (the transport removes a disconnected socket
from all rooms), the join_room handler, and the HTTP logout route (which
deletes the online_users entry when present). -/
inductive Step : AppState → AppState → Prop
  | connect (st : AppState) (session : Option (String × String)) (sid : String) :
      Step st (handle_connect session sid st).1
  | disconnect (st : AppState) (session : Option (String × String)) (sid : String) :
      Step st { (handle_disconnect session st).1 with
                rooms := st.rooms.filter (fun p => !(p.1 == sid)) }
  | joinRoom (st : AppState) (session : Option (String × String)) (sid : String)
      (droom : Option String) :
      Step st (handle_join_room session sid droom st).1
  | logout (st : AppState) (uid : String) :
      Step st { st with online_users := dictRemove uid st.online_users }

/-- States of app.py reachable from the initial empty state. -/
inductive Reachable : AppState → Prop
  | init : Reachable ⟨[], []⟩
  | step {st st₁ : AppState} : Reachable st → Step st st₁ → Reachable st₁

/-! ## Embedding of src/app_simple.py (database-free entry point) -/

/-- Value stored in the online_users dictionary of app_simple.py. -/
structure SUser where
  username : String
  socket_id : String
deriving Repr, DecidableEq

/-- Stored chat message of app_simple.py (in-memory list entry). -/
structure SMessage where
  username : String
  message : String
  message_type : String
  attachment_url : Option String
  timestamp : Nat
deriving Repr, DecidableEq

/-- Mutable state of app_simple.py relevant to the routing core. -/
structure SimpleState where
  online_users : List (String × SUser)
  chat_messages : List SMessage
  rooms : List (String × String)
deriving Repr, DecidableEq

/-- Function save_message of app_simple.py: appends the new record and, when
the store then exceeds 100 entries, pops the front (oldest) entry. -/
def save_message (username message message_type : String) (attachment_url : Option String)
    (now : Nat) (chat_messages : List SMessage) : List SMessage :=
  let msgs := chat_messages ++ [⟨username, message, message_type, attachment_url, fmtTime now⟩]
  if msgs.length > 100 then msgs.drop 1 else msgs

/-- Handler on_connect of app_simple.py: a connect without an authenticated
session returns False and the connection is refused (no registration, no
room join); otherwise the user is registered and the socket joins general. -/
def on_connect (session : Option (String × String)) (sid : String)
    (st : SimpleState) : SimpleState :=
  match session with
  | none => st
  | some (uid, name) =>
      { st with online_users := dictSet uid ⟨name, sid⟩ st.online_users,
                rooms := roomJoin sid "general" st.rooms }

/-- Handler on_disconnect of app_simple.py: removes the online_users entry. -/
def on_disconnect (session : Option (String × String)) (st : SimpleState) : SimpleState :=
  match session with
  | none => st
  | some (uid, _) => { st with online_users := dictRemove uid st.online_users }

/-- Payload of a new_message event in app_simple.py. -/
structure SMsgData where
  username : String
  message : String
  type_ : String
  timestamp : Nat
deriving Repr, DecidableEq

/-- Socket ids currently joined to a room, the delivery target set of an emit
with a room argument. -/
def sidsInRoom (room : String) (st : SimpleState) : List String :=
  (st.rooms.filter (fun p => p.2 == room)).map Prod.fst

/-- Handler handle_message of app_simple.py: requires an authenticated
session, drops the event when the trimmed body is empty, saves the message
into the bounded in-memory store, and emits one new_message event to the
general room, which the transport expands to every socket in that room. -/
def handle_message (session : Option (String × String)) (msg mtype : String)
    (now : Nat) (st : SimpleState) : SimpleState × List (String × SMsgData) :=
  match session with
  | none => (st, [])
  | some (_, name) =>
      let message := pyStrip msg
      if message = "" then (st, [])
      else
        let st₁ := { st with
          chat_messages := save_message name message mtype none now st.chat_messages }
        let md : SMsgData := ⟨name, message, mtype, fmtTime now⟩
        (st₁, (sidsInRoom "general" st).map (fun s => (s, md)))

/-- Handler handle_emotion_message of app_simple.py: builds the feeling
message (the numeric formatting of the confidence is abstracted as a string),
saves it, and emits a new_message event to the general room. -/
def handle_emotion_message (session : Option (String × String)) (emotion confidenceStr
    image_url : String) (now : Nat) (st : SimpleState) :
    SimpleState × List (String × SMsgData) :=
  match session with
  | none => (st, [])
  | some (_, name) =>
      let message := "I am feeling " ++ emotion ++ " (confidence: " ++ confidenceStr ++ ")"
      let st₁ := { st with
        chat_messages := save_message name message "emotion" (some image_url) now st.chat_messages }
      let md : SMsgData := ⟨name, message, "emotion", fmtTime now⟩
      (st₁, (sidsInRoom "general" st).map (fun s => (s, md)))

/-- One dispatch step of the app_simple.py event loop: connect (with a fresh
transport socket id), disconnect (the transport removes the socket from all
rooms), the two message handlers, and the HTTP logout route. -/
inductive SimpleStep : SimpleState → SimpleState → Prop
  | connect (st : SimpleState) (session : Option (String × String)) (sid : String)
      (hfresh : sid ∉ st.rooms.map Prod.fst) :
      SimpleStep st (on_connect session sid st)
  | disconnect (st : SimpleState) (session : Option (String × String)) (sid : String) :
      SimpleStep st { (on_disconnect session st) with
                      rooms := st.rooms.filter (fun p => !(p.1 == sid)) }
  | message (st : SimpleState) (session : Option (String × String)) (msg mtype : String)
      (now : Nat) :
      SimpleStep st (handle_message session msg mtype now st).1
  | emotion (st : SimpleState) (session : Option (String × String))
      (emotion confidenceStr image_url : String) (now : Nat) :
      SimpleStep st (handle_emotion_message session emotion confidenceStr image_url now st).1
  | logout (st : SimpleState) (uid : String) :
      SimpleStep st { st with online_users := dictRemove uid st.online_users }

/-- States of app_simple.py reachable from the initial empty state. -/
inductive SimpleReachable : SimpleState → Prop
  | init : SimpleReachable ⟨[], [], []⟩
  | step {st st₁ : SimpleState} : SimpleReachable st → SimpleStep st st₁ → SimpleReachable st₁

/-! ## Dictionary lemmas -/

theorem keys_dictSet {α : Type} (k : String) (v : α) (m : List (String × α)) :
    (dictSet k v m).map Prod.fst =
      if k ∈ m.map Prod.fst then m.map Prod.fst else m.map Prod.fst ++ [k] := by
  induction m with
  | nil => simp [dictSet]
  | cons p rest ih =>
      obtain ⟨k₁, v₁⟩ := p
      by_cases hk : k₁ = k
      · subst hk
        simp [dictSet]
      · by_cases hmem : k ∈ rest.map Prod.fst
        · simp [dictSet, hk, ih, hmem, Ne.symm hk]
        · simp [dictSet, hk, ih, hmem, Ne.symm hk]

theorem nodup_keys_dictSet {α : Type} {k : String} {v : α} {m : List (String × α)}
    (h : (m.map Prod.fst).Nodup) : ((dictSet k v m).map Prod.fst).Nodup := by
  rw [keys_dictSet]
  by_cases hmem : k ∈ m.map Prod.fst
  · simpa [hmem] using h
  · rw [if_neg hmem]
    exact List.Nodup.append h (List.nodup_singleton k)
      (by simpa [List.disjoint_singleton] using hmem)

theorem dictLookup_dictSet_self {α : Type} (k : String) (v : α) (m : List (String × α)) :
    dictLookup k (dictSet k v m) = some v := by
  induction m with
  | nil => simp [dictSet, dictLookup]
  | cons p rest ih =>
      obtain ⟨k₁, v₁⟩ := p
      by_cases hk : k₁ = k
      · simp [dictSet, hk, dictLookup]
      · simp [dictSet, hk, dictLookup, ih]

theorem mem_dictSet_eq {α : Type} {k : String} {v v₁ : α} {m : List (String × α)}
    (hnd : (m.map Prod.fst).Nodup) (h : (k, v₁) ∈ dictSet k v m) : v₁ = v := by
  induction m with
  | nil =>
      simp [dictSet] at h
      exact h
  | cons p rest ih =>
      obtain ⟨k₂, v₂⟩ := p
      rw [List.map_cons, List.nodup_cons] at hnd
      by_cases hk : k₂ = k
      · subst hk
        simp [dictSet] at h
        rcases h with h | h
        · exact h
        · exact absurd (List.mem_map_of_mem Prod.fst h) hnd.1
      · simp [dictSet, hk] at h
        rcases h with h | h
        · exact absurd h.1.symm hk
        · exact ih hnd.2 h

theorem nodup_keys_filter {α : Type} (f : String × α → Bool) {m : List (String × α)}
    (h : (m.map Prod.fst).Nodup) : (((m.filter f).map Prod.fst)).Nodup :=
  List.Nodup.sublist (List.Sublist.map Prod.fst (List.filter_sublist m)) h

/-- Invariant of app.py: along every reachable state, the online_users
dictionary has pairwise distinct user ids (Python dictionary semantics). -/
theorem reachable_nodup_keys {st : AppState} (h : Reachable st) :
    (st.online_users.map Prod.fst).Nodup := by
  induction h with
  | init => simp
  | step hr hstep ih =>
      rename_i st st₁
      cases hstep with
      | connect session sid =>
          cases session with
          | none => exact ih
          | some a =>
              obtain ⟨uid, name⟩ := a
              simpa [handle_connect] using nodup_keys_dictSet ih
      | disconnect session sid =>
          cases session with
          | none => exact ih
          | some a =>
              obtain ⟨uid, name⟩ := a
              simpa [handle_disconnect, dictRemove] using
                nodup_keys_filter (fun p => !(p.1 == uid)) ih
      | joinRoom session sid droom =>
          cases session with
          | none => exact ih
          | some a =>
              obtain ⟨uid, name⟩ := a
              cases hlk : dictLookup uid st.online_users with
              | none => simpa [handle_join_room, hlk] using ih
              | some ud => simpa [handle_join_room, hlk] using nodup_keys_dictSet ih
      | logout uid =>
          simpa [dictRemove] using nodup_keys_filter (fun p => !(p.1 == uid)) ih

/-! ## Invariants of app_simple.py -/

/-- Invariant of app_simple.py: every connected socket sits in exactly the
general room (the only room ever joined), and socket ids are distinct. -/
def SimpleInv (st : SimpleState) : Prop :=
  (st.rooms.map Prod.fst).Nodup ∧ ∀ p ∈ st.rooms, p.2 = "general"

theorem handle_message_rooms (session : Option (String × String)) (msg mtype : String)
    (now : Nat) (st : SimpleState) :
    (handle_message session msg mtype now st).1.rooms = st.rooms := by
  cases session with
  | none => rfl
  | some a =>
      obtain ⟨uid, name⟩ := a
      by_cases hm : pyStrip msg = ""
      · simp [handle_message, hm]
      · simp [handle_message, hm]

theorem handle_emotion_message_rooms (session : Option (String × String))
    (emotion confidenceStr image_url : String) (now : Nat) (st : SimpleState) :
    (handle_emotion_message session emotion confidenceStr image_url now st).1.rooms =
      st.rooms := by
  cases session with
  | none => rfl
  | some a =>
      obtain ⟨uid, name⟩ := a
      simp [handle_emotion_message]

theorem simpleReachable_inv {st : SimpleState} (h : SimpleReachable st) : SimpleInv st := by
  induction h with
  | init => exact ⟨by simp, by simp⟩
  | step hr hstep ih =>
      rename_i st st₁
      obtain ⟨hnd, hgen⟩ := ih
      cases hstep with
      | connect session sid hfresh =>
          cases session with
          | none => exact ⟨hnd, hgen⟩
          | some a =>
              obtain ⟨uid, name⟩ := a
              have hmem : (sid, "general") ∉ st.rooms := fun hm =>
                hfresh (List.mem_map_of_mem Prod.fst hm)
              constructor
              · show ((roomJoin sid "general" st.rooms).map Prod.fst).Nodup
                rw [roomJoin, if_neg hmem, List.map_append]
                exact List.Nodup.append hnd (List.nodup_singleton sid)
                  (by simpa [List.disjoint_singleton] using hfresh)
              · intro p hp
                rw [show (on_connect (some (uid, name)) sid st).rooms =
                    roomJoin sid "general" st.rooms from rfl, roomJoin, if_neg hmem] at hp
                rcases List.mem_append.mp hp with hp | hp
                · exact hgen p hp
                · simp at hp
                  simp [hp]
      | disconnect session sid =>
          refine ⟨?_, ?_⟩
          · have : ({ (on_disconnect session st) with
                rooms := st.rooms.filter (fun p => !(p.1 == sid)) }).rooms =
                st.rooms.filter (fun p => !(p.1 == sid)) := rfl
            rw [this]
            exact nodup_keys_filter (fun p => !(p.1 == sid)) hnd
          · intro p hp
            exact hgen p (List.mem_of_mem_filter hp)
      | message session msg mtype now =>
          have hr₁ := handle_message_rooms session msg mtype now st
          exact ⟨hr₁ ▸ hnd, hr₁ ▸ hgen⟩
      | emotion session emotion confidenceStr image_url now =>
          have hr₁ := handle_emotion_message_rooms session emotion confidenceStr image_url now st
          exact ⟨hr₁ ▸ hnd, hr₁ ▸ hgen⟩
      | logout uid =>
          exact ⟨hnd, hgen⟩

/-- Lookup by username after a replacing registration: when the username
belongs only to the registered user id, the first entry found with that
username is the fresh one. -/
theorem find_username_dictSet (uid nm r sid : String) (m : List (String × UserData))
    (h : ∀ p ∈ m, p.2.username = nm → p.1 = uid) :
    (dictSet uid ⟨nm, r, sid⟩ m).find? (fun p => p.2.username == nm) =
      some (uid, ⟨nm, r, sid⟩) := by
  induction m with
  | nil => simp [dictSet]
  | cons p rest ih =>
      obtain ⟨k₁, v₁⟩ := p
      by_cases hk : k₁ = uid
      · subst hk
        simp [dictSet, List.find?]
      · have hv : ¬ v₁.username = nm := by
          intro hb
          exact hk (h (k₁, v₁) (by simp) hb)
        rw [show dictSet uid ⟨nm, r, sid⟩ ((k₁, v₁) :: rest) =
            (k₁, v₁) :: dictSet uid ⟨nm, r, sid⟩ rest from by simp [dictSet, hk]]
        rw [List.find?_cons_of_neg _ (by simpa using hv)]
        exact ih (fun q hq hq₁ => h q (by simp [hq]) hq₁)

/-! ## Claim theorems -/

/-- C1: for every registered sender and every room message with non-empty
trimmed body, the room-message send operation (handle_message of
app_simple.py) delivers exactly one new_message event to every session whose
current room equals the room of the sender, the sender included, and to no
session whose current room differs; every delivery target is a connected
session. -/
theorem room_message_broadcast
    (st : SimpleState) (h : SimpleReachable st)
    (uid name sid senderRoom msg mtype : String) (now : Nat)
    (hconn : (sid, senderRoom) ∈ st.rooms) (hmsg : ¬ pyStrip msg = "") :
    (∀ sid₁ room₁, (sid₁, room₁) ∈ st.rooms →
      ((handle_message (some (uid, name)) msg mtype now st).2.map Prod.fst).count sid₁ =
        if room₁ = senderRoom then 1 else 0) ∧
    (∀ t ∈ (handle_message (some (uid, name)) msg mtype now st).2.map Prod.fst,
      ∃ room₁, (t, room₁) ∈ st.rooms) := by
  obtain ⟨hnd, hgen⟩ := simpleReachable_inv h
  have hsr : senderRoom = "general" := hgen (sid, senderRoom) hconn
  have hfilter : st.rooms.filter (fun p => p.2 == "general") = st.rooms :=
    List.filter_eq_self.mpr (fun p hp => by simp [hgen p hp])
  have hemits : (handle_message (some (uid, name)) msg mtype now st).2.map Prod.fst =
      st.rooms.map Prod.fst := by
    simp [handle_message, hmsg, sidsInRoom, hfilter, List.map_map]
  constructor
  · intro sid₁ room₁ hp
    have hr₁ : room₁ = "general" := hgen (sid₁, room₁) hp
    rw [hemits, hr₁, hsr, if_pos rfl]
    exact List.count_eq_one_of_mem hnd (List.mem_map_of_mem Prod.fst hp)
  · intro t ht
    rw [hemits] at ht
    obtain ⟨p, hp, hpt⟩ := List.mem_map.mp ht
    exact ⟨p.2, by rw [← hpt]; exact hp⟩

/-- Witness state for C1: alice connects with socket A to the empty state. -/
def simpleWitnessState : SimpleState := on_connect (some ("1", "alice")) "A" ⟨[], [], []⟩

/-- Witness for C1 at a concrete reachable state: alice sends hi and the one
session in the general room receives it exactly once. -/
theorem room_message_broadcast_witness :
    (("A", "general") ∈ simpleWitnessState.rooms) ∧ ¬ (pyStrip "hi" = "") ∧
    ((handle_message (some ("1", "alice")) "hi" "text" 5 simpleWitnessState).2.map
        Prod.fst).count "A" = 1 := by
  have hreach : SimpleReachable simpleWitnessState :=
    SimpleReachable.step SimpleReachable.init
      (SimpleStep.connect ⟨[], [], []⟩ (some ("1", "alice")) "A" (by simp))
  refine ⟨by decide, by decide, ?_⟩
  have h := (room_message_broadcast simpleWitnessState hreach "1" "alice" "A" "general"
      "hi" "text" 5 (by decide) (by decide)).1 "A" "general" (by decide)
  simpa using h

/-- C2: for every authenticated sender and direct message with non-empty
trimmed body and non-empty recipient, the delivery targets are exactly the
socket of the sender, plus the socket of the recipient precisely when the
recipient differs from the sender and has a live session; a self-message is
delivered exactly once. -/
theorem direct_message_delivery_targets
    (st : AppState) (uid name sid : String) (data : PMInput) (dbFail : Bool)
    (now : Nat) (db : List PrivateRec)
    (hmsg : ¬ pyStrip data.message = "") (hrec : ¬ data.recipient = "") :
    (∀ t, t ∈ (handle_private_message (some (uid, name)) sid data dbFail now st db).emits.map
        Prod.fst ↔
      (t = sid ∨ (data.recipient ≠ name ∧ get_user_socket data.recipient st = some t))) ∧
    (data.recipient = name →
      (handle_private_message (some (uid, name)) sid data dbFail now st db).emits.length
        = 1) := by
  constructor
  · intro t
    by_cases hd : data.recipient = name
    · have hrec₁ : ¬ name = "" := hd ▸ hrec
      simp [handle_private_message, hmsg, hrec₁, hd]
    · cases hlk : get_user_socket data.recipient st with
      | none =>
          simp [handle_private_message, hmsg, hrec, hd, hlk]
      | some r =>
          simp [handle_private_message, hmsg, hrec, hd, hlk]
          constructor
          · rintro (h | h)
            · exact Or.inl h
            · exact Or.inr h.symm
          · rintro (h | h)
            · exact Or.inl h
            · exact Or.inr h.symm
  · intro hd
    have hrec₁ : ¬ name = "" := hd ▸ hrec
    simp [handle_private_message, hmsg, hrec₁, hd]

/-- Witness state for C2 and C10: bob is online with socket B. -/
def pmWitnessState : AppState := ⟨[("2", ⟨"bob", "general", "B"⟩)], [("B", "general")]⟩

/-- Witness payload for C2 and C10: a plain text message from alice to bob. -/
def pmWitnessData : PMInput := ⟨"hello", "bob", "text", none, none, "payload"⟩

/-- Witness for C2: with bob online, the message from alice reaches socket B. -/
theorem direct_message_delivery_targets_witness :
    (¬ pyStrip pmWitnessData.message = "") ∧ (¬ pmWitnessData.recipient = "") ∧
    "B" ∈ (handle_private_message (some ("1", "alice")) "A" pmWitnessData false 5
        pmWitnessState []).emits.map Prod.fst := by
  refine ⟨by decide, by decide, ?_⟩
  have h := (direct_message_delivery_targets pmWitnessState "1" "alice" "A" pmWitnessData
      false 5 [] (by decide) (by decide)).1 "B"
  exact h.mpr (Or.inr ⟨by decide, by decide⟩)

/-- C3: conversation history is symmetric in the order of the two usernames
(messages of either direction are matched), and the returned rows are sorted
by creation time ascending. -/
theorem conversation_history_symmetric_and_sorted
    (dbFail : Bool) (u1 u2 : String) (limit : Nat) (db : List PrivateRec) :
    get_chat_history_from_db dbFail u1 u2 limit db =
      get_chat_history_from_db dbFail u2 u1 limit db ∧
    (conversationRows dbFail u1 u2 limit db).Pairwise
      (fun a b => a.timestamp ≤ b.timestamp) := by
  have hfil : db.filter (pmMatches u1 u2) = db.filter (pmMatches u2 u1) :=
    List.filter_congr (fun m _ => by
      simp only [pmMatches]
      exact Bool.or_comm _ _)
  constructor
  · unfold get_chat_history_from_db conversationRows
    rw [hfil]
  · unfold conversationRows
    by_cases hf : dbFail
    · simp [hf]
    · rw [if_neg hf]
      have htrans : ∀ (a b c : PrivateRec), pmLE a b → pmLE b c → pmLE a c := by
        intro a b c hab hbc
        simp only [pmLE, decide_eq_true_eq] at hab hbc ⊢
        omega
      have htotal : ∀ (a b : PrivateRec), pmLE a b || pmLE b a := by
        intro a b
        simp only [pmLE, Bool.or_eq_true, decide_eq_true_eq]
        omega
      have hs : ((db.filter (pmMatches u1 u2)).mergeSort pmLE).Pairwise
          (fun a b => pmLE a b) :=
        List.sorted_mergeSort htrans htotal (db.filter (pmMatches u1 u2))
      have hs₁ := List.Pairwise.sublist
        (List.take_sublist limit ((db.filter (pmMatches u1 u2)).mergeSort pmLE)) hs
      exact hs₁.imp (fun hab => by simpa [pmLE] using hab)

/-- C4: along every reachable state of app.py the registry holds at most one
live session per user id, and a second connect for the same user id replaces
the transport handle: the user id then maps to the new socket only, and a
delivery looked up by the username of that user targets the new socket. -/
theorem registry_single_session_per_user
    (st : AppState) (h : Reachable st) (uid nm sid : String)
    (huniq : ∀ p ∈ st.online_users, p.2.username = nm → p.1 = uid) :
    (st.online_users.map Prod.fst).Nodup ∧
    ((handle_connect (some (uid, nm)) sid st).1.online_users.map Prod.fst).Nodup ∧
    dictLookup uid (handle_connect (some (uid, nm)) sid st).1.online_users =
      some ⟨nm, "general", sid⟩ ∧
    (∀ v : UserData, (uid, v) ∈ (handle_connect (some (uid, nm)) sid st).1.online_users →
      v.socket_id = sid) ∧
    get_user_socket nm (handle_connect (some (uid, nm)) sid st).1 = some sid := by
  have hnd := reachable_nodup_keys h
  refine ⟨hnd, ?_, ?_, ?_, ?_⟩
  · simpa [handle_connect] using nodup_keys_dictSet hnd
  · simpa [handle_connect] using
      dictLookup_dictSet_self uid ⟨nm, "general", sid⟩ st.online_users
  · intro v hv
    have hv₁ : (uid, v) ∈ dictSet uid ⟨nm, "general", sid⟩ st.online_users := by
      simpa [handle_connect] using hv
    have := mem_dictSet_eq hnd hv₁
    simp [this]
  · simp [handle_connect, get_user_socket,
      find_username_dictSet uid nm "general" sid st.online_users huniq]

/-- Witness for C4: connecting alice twice from the empty state leaves the
registry mapping her user id to the latest socket handle. -/
theorem registry_single_session_per_user_witness :
    Reachable (⟨[], []⟩ : AppState) ∧
    dictLookup "1"
        (handle_connect (some ("1", "alice")) "A2" (⟨[], []⟩ : AppState)).1.online_users =
      some ⟨"alice", "general", "A2"⟩ :=
  ⟨Reachable.init,
   (registry_single_session_per_user ⟨[], []⟩ Reachable.init "1" "alice" "A2"
      (by simp)).2.2.1⟩

/-- C5: a send whose body is empty after trimming is a silent no-op in both
entry points: no persistence write, no delivery, no error log, and the state
is unchanged. -/
theorem empty_body_send_noop
    (session : Option (String × String)) (sid : String) (data : PMInput) (dbFail : Bool)
    (now : Nat) (st : AppState) (db : List PrivateRec)
    (ssession : Option (String × String)) (msg mtype : String) (snow : Nat)
    (sst : SimpleState)
    (hempty : pyStrip data.message = "") (hsempty : pyStrip msg = "") :
    handle_private_message session sid data dbFail now st db = ⟨db, [], []⟩ ∧
    handle_message ssession msg mtype snow sst = (sst, []) := by
  constructor
  · cases session with
    | none => rfl
    | some a =>
        obtain ⟨uid, name⟩ := a
        simp [handle_private_message, hempty]
  · cases ssession with
    | none => rfl
    | some a =>
        obtain ⟨uid, name⟩ := a
        simp [handle_message, hsempty]

/-- Witness payload for C5: a body of blanks only. -/
def emptyBodyData : PMInput := ⟨"   ", "bob", "text", none, none, "payload"⟩

/-- Witness for C5: a whitespace-only direct message leaves database, emits
and logs empty. -/
theorem empty_body_send_noop_witness :
    pyStrip emptyBodyData.message = "" ∧ pyStrip "  " = "" ∧
    handle_private_message (some ("1", "alice")) "A" emptyBodyData false 5 ⟨[], []⟩ [] =
      ⟨[], [], []⟩ :=
  ⟨by decide, by decide,
   (empty_body_send_noop (some ("1", "alice")) "A" emptyBodyData false 5 ⟨[], []⟩ []
      (some ("1", "alice")) "  " "text" 5 ⟨[], [], []⟩ (by decide) (by decide)).1⟩

/-- C6: every one of the four operations, when invoked without an
authenticated session, is a silent no-op: unchanged registry and store, no
persisted record, no emitted event. -/
theorem unauthenticated_ops_noop
    (sid : String) (data : PMInput) (dbFail : Bool) (now : Nat) (st : AppState)
    (db : List PrivateRec) (droom : Option String) (recipient msg mtype : String)
    (snow : Nat) (sst : SimpleState) :
    handle_private_message none sid data dbFail now st db = ⟨db, [], []⟩ ∧
    handle_join_room none sid droom st = (st, Except.ok []) ∧
    handle_get_chat_history none recipient dbFail db = [] ∧
    handle_message none msg mtype snow sst = (sst, []) :=
  ⟨rfl, rfl, rfl, rfl⟩

/-- C7: evaluation of handle_join_room for an authenticated caller whose user
id is absent from the registry: the handler raises (KeyError from the
registry assignment) instead of completing as a no-op; the registry is left
unchanged but the socket has already joined the new room. -/
theorem join_room_unregistered_raises :
    (handle_join_room (some ("7", "alice")) "S" (some "sports") ⟨[], []⟩).2 =
      Except.error () ∧
    (handle_join_room (some ("7", "alice")) "S" (some "sports") ⟨[], []⟩).1.online_users
      = [] ∧
    (handle_join_room (some ("7", "alice")) "S" (some "sports") ⟨[], []⟩).1.rooms =
      [("S", "sports")] := by
  refine ⟨rfl, rfl, rfl⟩

/-- C8: a persistence failure during a direct-message send changes none of
the deliveries (persist best-effort, deliver regardless), the failure is
logged whenever the send reaches the persistence layer, and a failing
history read returns the empty list. -/
theorem persistence_failure_behavior
    (session : Option (String × String)) (sid : String) (data : PMInput) (now : Nat)
    (st : AppState) (db : List PrivateRec) (uid name u1 u2 : String) (limit : Nat) :
    (handle_private_message session sid data true now st db).emits =
      (handle_private_message session sid data false now st db).emits ∧
    (handle_private_message (some (uid, name)) sid data true now st db).logs =
      (if pyStrip data.message = "" ∨ data.recipient = "" then []
       else ["Error saving private message"]) ∧
    get_chat_history_from_db true u1 u2 limit db = [] := by
  refine ⟨?_, ?_, rfl⟩
  · cases session with
    | none => rfl
    | some a =>
        obtain ⟨uid₁, name₁⟩ := a
        by_cases hc : pyStrip data.message = "" ∨ data.recipient = ""
        · simp [handle_private_message, hc]
        · simp [handle_private_message, hc, save_private_message_to_db]
  · by_cases hc : pyStrip data.message = "" ∨ data.recipient = ""
    · simp [handle_private_message, hc]
    · simp [handle_private_message, hc, save_private_message_to_db]

/-- Input of one call of save_message in app_simple.py. -/
structure SaveIn where
  username : String
  message : String
  message_type : String
  attachment_url : Option String
  now : Nat
deriving Repr, DecidableEq

/-- Record built by save_message from one input. -/
def mkSMessage (i : SaveIn) : SMessage :=
  ⟨i.username, i.message, i.message_type, i.attachment_url, fmtTime i.now⟩

/-- Replay of a sequence of save_message calls starting from the empty
in-memory store. -/
def runSaves (inputs : List SaveIn) : List SMessage :=
  inputs.foldl
    (fun store i => save_message i.username i.message i.message_type i.attachment_url
      i.now store) []

theorem runSaves_eq (inputs : List SaveIn) :
    runSaves inputs = (inputs.map mkSMessage).drop (inputs.length - 100) := by
  induction inputs using List.reverseRecOn with
  | nil => rfl
  | append_singleton xs i ih =>
      have hfold : runSaves (xs ++ [i]) =
          save_message i.username i.message i.message_type i.attachment_url i.now
            (runSaves xs) := by
        simp [runSaves, List.foldl_append]
      rw [hfold, ih]
      by_cases hn : xs.length ≤ 99
      · have h₀ : xs.length - 100 = 0 := by omega
        have h₁ : (xs ++ [i]).length - 100 = 0 := by simp; omega
        rw [h₀, h₁]
        simp only [List.drop_zero, save_message, mkSMessage]
        rw [if_neg (by simp; omega)]
        simp [mkSMessage]
      · have hlen : ((xs.map mkSMessage).drop (xs.length - 100)).length = 100 := by
          simp [List.length_drop]
          omega
        simp only [save_message]
        rw [if_pos (by simp [hlen])]
        have h₄ : (1 : Nat) ≤ ((xs.map mkSMessage).drop (xs.length - 100)).length := by
          rw [hlen]
          omega
        rw [List.drop_append_of_le_length h₄, List.drop_drop]
        have h₂ : (xs ++ [i]).length - 100 = xs.length - 99 := by
          simp only [List.length_append, List.length_cons, List.length_nil]
          omega
        rw [h₂]
        have h₅ : xs.length - 100 + 1 = xs.length - 99 := by omega
        rw [h₅, List.map_append,
          List.drop_append_of_le_length (by simp only [List.length_map]; omega)]
        simp [mkSMessage]

/-- C9: the in-memory message store of app_simple.py never exceeds 100
entries across any sequence of saves, and the store is always the
chronological suffix of everything saved, so the oldest messages are the
evicted ones and the order of the remainder is preserved. -/
theorem bounded_message_ring (inputs : List SaveIn) :
    (runSaves inputs).length ≤ 100 ∧
    runSaves inputs = (inputs.map mkSMessage).drop (inputs.length - 100) := by
  refine ⟨?_, runSaves_eq inputs⟩
  rw [runSaves_eq]
  simp [List.length_drop]
  omega

/-- C10: when a direct message is delivered to both the sender and a distinct
online recipient, both deliveries carry the identical payload. -/
theorem direct_message_payload_identical
    (st : AppState) (uid name sid rsock : String) (data : PMInput) (dbFail : Bool)
    (now : Nat) (db : List PrivateRec)
    (hmsg : ¬ pyStrip data.message = "") (hrec : ¬ data.recipient = "")
    (hd : data.recipient ≠ name)
    (honline : get_user_socket data.recipient st = some rsock) :
    (handle_private_message (some (uid, name)) sid data dbFail now st db).emits.length = 2 ∧
    (∀ p ∈ (handle_private_message (some (uid, name)) sid data dbFail now st db).emits,
      ∀ q ∈ (handle_private_message (some (uid, name)) sid data dbFail now st db).emits,
        p.2 = q.2) := by
  constructor
  · simp [handle_private_message, hmsg, hrec, hd, honline]
  · intro p hp q hq
    simp [handle_private_message, hmsg, hrec, hd, honline] at hp hq
    rcases hp with hp | hp <;> rcases hq with hq | hq <;> simp [hp, hq]

/-- Witness for C10: with bob online at socket B, the message from alice is
delivered twice with one and the same payload. -/
theorem direct_message_payload_identical_witness :
    get_user_socket "bob" pmWitnessState = some "B" ∧
    (handle_private_message (some ("1", "alice")) "A" pmWitnessData false 5
        pmWitnessState []).emits.length = 2 :=
  ⟨by decide,
   (direct_message_payload_identical pmWitnessState "1" "alice" "A" "B" pmWitnessData
      false 5 [] (by decide) (by decide) (by decide) (by decide)).1⟩

end ChatApp
